import Mathlib

/-!
# A shallow embedding of `scripts/fintrans.py` (gess)

`fintrans.py` implements `FinTransSource`, a synthetic generator of ATM-withdrawal
transactions.  This file embeds its data model and operations in Lean and proves
the behavioural properties stated about them.

Modelling conventions:
* Python machine integers are `Nat`/`Int` (Python ints are unbounded anyway).
* `random.randint(lo, hi)` and `random.choice(seq)` are modelled by total
  functions taking an extra oracle argument `i : Nat`; `pyrandint` always lands
  in the inclusive range `[lo, hi]`, exactly the guarantee `random.randint`
  gives, and `pychoice` picks an element of the sequence (`none` on an empty
  sequence, where `random.choice` raises `IndexError`).
* Wall-clock instants (`datetime.datetime.now()`) are epoch seconds; the source
  renders them with `strftime` at second precision, so a rendering function
  `fmt : Int → String` is passed where the rendered text matters.
* The dictionary `self.atm_loc` is an association list in insertion order with
  Python's assignment semantics (overwrite in place when the key is present,
  append otherwise).  The source keys it by the decimal string
  `str(atm_counter)`; since `str` is injective on the nonnegative integers the
  table behaves identically when keyed by the counter value itself, which is
  what we use.
* Exceptions are modelled with `Option`/error components: a raised exception is
  a `some errorname` / `none` result.
-/

namespace Fintrans

/-! ## Module-level configuration constants (fintrans.py lines 25-43) -/

/-- `SAMPLE_INTERVAL = 10`: sampling interval (seconds) for runtime statistics. -/
def SAMPLE_INTERVAL : Nat := 10

/-- `FRAUD_TICK_MIN = 5`: lower range for randomly emitted frauds. -/
def FRAUD_TICK_MIN : Nat := 5

/-- `FRAUD_TICK_MAX = 15`: upper range for randomly emitted frauds. -/
def FRAUD_TICK_MAX : Nat := 15

/-- `AMOUNTS = [20, 50, 100, 200, 300, 400]`: ATM withdrawal amounts. -/
def AMOUNTS : List Nat := [20, 50, 100, 200, 300, 400]

/-! ## Models of the Python library primitives used by the source -/

/-- Model of `random.randint(lo, hi)`: the draw indexed by oracle `i`,
always inside the inclusive range `[lo, hi]` (for `lo ≤ hi`). -/
def pyrandint (lo hi i : Nat) : Nat := lo + i % (hi - lo + 1)

/-- Model of `random.choice(l)`: the element indexed by oracle `i`;
`none` models the `IndexError` raised on an empty sequence. -/
def pychoice {α : Type} (l : List α) (i : Nat) : Option α :=
  l.get? (i % l.length)

theorem pyrandint_le (lo hi i : Nat) (h : lo ≤ hi) : pyrandint lo hi i ≤ hi := by
  unfold pyrandint
  have hlt : i % (hi - lo + 1) < hi - lo + 1 := Nat.mod_lt _ (Nat.succ_pos _)
  omega

theorem le_pyrandint (lo hi i : Nat) : lo ≤ pyrandint lo hi i :=
  Nat.le_add_right _ _

/-! ## The ATM location table (`FinTransSource.__init__` / `_load_data`,
lines 57-78) -/

/-- One value of `self.atm_loc`: the tuple `lat, lon, atm_label` stored by
`_load_data` (note the stored order is latitude first, even though the CSV
column order is longitude first). -/
structure AtmRecord where
  lat : String
  lon : String
  label : String
deriving Repr, DecidableEq

/-- The table `self.atm_loc`, keyed by the load counter (see the header notes
on why the integer key is interchangeable with the source's `str(atm_counter)`
key). -/
abbrev AtmLoc := List (Nat × AtmRecord)

/-- Python dictionary assignment `d[k] = v`: overwrite in place when the key is
present, append otherwise. -/
def dictAssign (d : AtmLoc) (k : Nat) (v : AtmRecord) : AtmLoc :=
  if d.any (fun p => p.1 == k) then
    d.map (fun p => if p.1 == k then (k, v) else p)
  else
    d ++ [(k, v)]

/-- `lat, lon, atm_label = row[1], row[0], row[2]` (line 71): succeeds exactly
when the CSV row has at least three fields; a shorter row raises `IndexError`
(modelled as `none`). -/
def parseRow (row : List String) : Option AtmRecord :=
  match row with
  | lon :: lat :: label :: _ => some ⟨lat, lon, label⟩
  | _ => none

/-- The row loop of `_load_data` (lines 69-75): `atm_counter` starts at the
given value, each well-formed row is stored under key `atm_counter + 1`, and an
`IndexError` on a malformed row propagates (the `try` block has only a
`finally`, no handler), leaving the rows stored so far in the table.
Returns (table, final counter, raised exception if any). -/
def load_rows (d : AtmLoc) (atm_counter : Nat) :
    List (List String) → AtmLoc × Nat × Option String
  | [] => (d, atm_counter, none)
  | row :: rest =>
    match parseRow row with
    | none => (d, atm_counter, some "IndexError")
    | some rec =>
      load_rows (dictAssign d (atm_counter + 1) rec) (atm_counter + 1) rest

/-- `_load_data` (lines 65-78): loads one CSV file into `self.atm_loc`,
with the local `atm_counter` reset to 0 for this file. -/
def load_data (d : AtmLoc) (rows : List (List String)) : AtmLoc × Option String :=
  let r := load_rows d 0 rows
  (r.1, r.2.2)

/-- `__init__` (lines 57-62): loads every source file in order; an exception
raised while loading one file propagates, so later files are not loaded. -/
def init_atm_loc (sources : List (List (List String))) : AtmLoc × Option String :=
  sources.foldl
    (fun acc src =>
      match acc.2 with
      | some e => (acc.1, some e)
      | none => load_data acc.1 src)
    ([], none)

/-- Reference description of a successful load starting at counter `c`: one
entry per row, keyed `c+1, c+2, ...` in row order, holding the parsed record. -/
def entriesFrom (c : Nat) : List (List String) → AtmLoc
  | [] => []
  | row :: rest =>
    match parseRow row with
    | some rec => (c + 1, rec) :: entriesFrom (c + 1) rest
    | none => []

/-! ## Transaction records (`_create_fintran` lines 95-110,
`_create_fraudtran` lines 131-146) -/

/-- The nested `'location'` dictionary of a transaction. -/
structure TxLocation where
  lat : String
  lon : String
deriving Repr, DecidableEq

/-- A transaction dictionary, fields in the source's construction order:
`timestamp, atm, location, amount, account_id, transaction_id`.
`timestamp` is the epoch-second instant that the source renders with
`strftime("%Y-%m-%d %H:%M:%S %z+0000")` (second precision). -/
structure FinTran where
  timestamp : Int
  atm : String
  location : TxLocation
  amount : Nat
  account_id : String
  transaction_id : String
deriving Repr, DecidableEq

/-- Model of CPython's `sys.getsizeof` on a byte string: a fixed positive
object-header `overhead` plus the payload length (37 + len on a 64-bit
CPython 2.7 build; only `0 < overhead` is ever relied on). -/
def getsizeof_str (overhead : Nat) (s : String) : Nat := overhead + s.length

/-- `str(fintran)`: the Python `repr` of the transaction dictionary
(single-quoted strings), with `fmt` rendering the timestamp instant.
CPython 2.7 iterates dictionary keys in a fixed hash order; we fix the
source's construction order, which only permutes the same fragments. -/
def pyStrOfFintran (fmt : Int → String) (t : FinTran) : String :=
  "\x7b'timestamp': '" ++ fmt t.timestamp ++
  "', 'atm': '" ++ t.atm ++
  "', 'location': \x7b'lat': '" ++ t.location.lat ++
  "', 'lon': '" ++ t.location.lon ++
  "'\x7d, 'amount': " ++ toString t.amount ++
  ", 'account_id': '" ++ t.account_id ++
  "', 'transaction_id': '" ++ t.transaction_id ++ "'\x7d"

/-- `json.dumps(fintran)`: the JSON serialization (double-quoted strings,
default separators), same key order as `pyStrOfFintran`. -/
def jsonOfFintran (fmt : Int → String) (t : FinTran) : String :=
  "\x7b\"timestamp\": \"" ++ fmt t.timestamp ++
  "\", \"atm\": \"" ++ t.atm ++
  "\", \"location\": \x7b\"lat\": \"" ++ t.location.lat ++
  "\", \"lon\": \"" ++ t.location.lon ++
  "\"\x7d, \"amount\": " ++ toString t.amount ++
  ", \"account_id\": \"" ++ t.account_id ++
  "\", \"transaction_id\": \"" ++ t.transaction_id ++ "\"\x7d"

/-- `_create_fintran` (lines 95-110).  Oracle arguments: `rloc` drives
`random.choice(self.atm_loc.keys())`, `rAmt` drives `random.choice(AMOUNTS)`,
`racct` drives `random.randint(1, 1000)`; `now` is `datetime.datetime.now()`
and `uuidStr` is `str(uuid.uuid1())`.  `none` models the `IndexError` that
`random.choice` raises on an empty table.  Returns
`(fintran, sys.getsizeof(str(fintran)))`. -/
def create_fintran (atm_loc : AtmLoc) (fmt : Int → String) (overhead : Nat)
    (rloc rAmt racct : Nat) (now : Int) (uuidStr : String) :
    Option (FinTran × Nat) :=
  match pychoice (atm_loc.map Prod.fst) rloc with
  | none => none
  | some k =>
    match atm_loc.lookup k with
    | none => none
    | some loc =>
      match pychoice AMOUNTS rAmt with
      | none => none
      | some amt =>
        let fintran : FinTran :=
          { timestamp := now
            atm := loc.label
            location := { lat := loc.lat, lon := loc.lon }
            amount := amt
            account_id := "a" ++ toString (pyrandint 1 1000 racct)
            transaction_id := uuidStr }
        some (fintran, getsizeof_str overhead (pyStrOfFintran fmt fintran))

/-- `_create_fraudtran` (lines 131-146).  The location and amount are
re-sampled; `timestamp` is `datetime.datetime.now()` at fraud-creation minus
`timedelta(seconds=random.randint(60, 600))`; `account_id` is copied from the
originating transaction and `transaction_id` is `'xxx' + ` the original's.
The originating dictionary is only read, never assigned into (the embedding is
a pure function of it).  Returns `(fraudtran, sys.getsizeof(str(fraudtran)))`. -/
def create_fraudtran (atm_loc : AtmLoc) (fmt : Int → String) (overhead : Nat)
    (fintran : FinTran) (rloc rAmt roff : Nat) (now : Int) :
    Option (FinTran × Nat) :=
  match pychoice (atm_loc.map Prod.fst) rloc with
  | none => none
  | some k =>
    match atm_loc.lookup k with
    | none => none
    | some loc =>
      match pychoice AMOUNTS rAmt with
      | none => none
      | some amt =>
        let fraudtran : FinTran :=
          { timestamp := now - (pyrandint 60 600 roff : Nat)
            atm := loc.label
            location := { lat := loc.lat, lon := loc.lon }
            amount := amt
            account_id := fintran.account_id
            transaction_id := "xxx" ++ fintran.transaction_id }
        some (fraudtran, getsizeof_str overhead (pyStrOfFintran fmt fraudtran))

/-! ## The run loop (`FinTransSource.run`, lines 168-220)

One iteration of the `while True` body is `runCycle`.  The loop-local mutable
variables are `RunState`; the per-cycle environment (the serialized sizes of
the two possible transactions, the oracle for the threshold redraw, and the
wall clock at the end of the cycle) is `CycleInput`.  Wall-clock instants here
are nonnegative epoch seconds (`Nat`); `diff_time = end_time - start_time` is a
`timedelta` whose `.seconds` attribute is the total difference modulo 86400
(the loop closes every window within roughly `SAMPLE_INTERVAL` seconds, far
below a day, but we keep the modulus for faithfulness). -/

/-- The loop-local mutable state of `run`: `start_time`, `num_fintrans`,
`num_bytes`, `ticks`, `fraud_tick` (lines 169-181).  `tp_fintrans` and
`tp_bytes` are recomputed from these at every report, so they are not state. -/
structure RunState where
  start_time : Nat
  num_fintrans : Nat
  num_bytes : Nat
  ticks : Nat
  fraud_tick : Nat
deriving Repr, DecidableEq

/-- The environment of one cycle: `fintransize` and `fraudtransize` as
returned by the create calls, the oracle for `random.randint(FRAUD_TICK_MIN,
FRAUD_TICK_MAX)`, and `end_time = datetime.datetime.now()` (the same instant,
at second precision, as the report timestamp and the new `start_time`). -/
structure CycleInput where
  fintransize : Nat
  fraudtransize : Nat
  redraw : Nat
  now : Nat
deriving Repr, DecidableEq

/-- One TSV statistics row (lines 211-219): timestamp, `num_fintrans/1000`,
`tp_fintrans`, `num_bytes/1024/1024`, `tp_bytes` (all Python 2 integer
divisions). -/
structure StatsReport where
  ts : Nat
  num_fintrans_th : Nat
  tp_fintrans : Nat
  num_bytes_mb : Nat
  tp_bytes : Nat
deriving Repr, DecidableEq

/-- What one cycle produced: whether a fraud transaction was created and sent
this cycle, and the statistics row if one was logged. -/
structure CycleResult where
  fraudEmitted : Bool
  report : Option StatsReport
deriving Repr, DecidableEq

/-- The initial loop state (lines 169-181): counters zero and
`fraud_tick = random.randint(FRAUD_TICK_MIN, FRAUD_TICK_MAX)`, drawn once
before the loop starts. -/
def initRunState (start t0 : Nat) : RunState :=
  { start_time := start
    num_fintrans := 0
    num_bytes := 0
    ticks := 0
    fraud_tick := pyrandint FRAUD_TICK_MIN FRAUD_TICK_MAX t0 }

/-- One iteration of the `while True` body (lines 185-220): increment `ticks`;
if `ticks > fraud_tick` create and send a fraud transaction, count 2
transactions and both sizes, reset `ticks` to 0 and redraw `fraud_tick`,
otherwise count 1 transaction and one size; then, if
`diff_time.seconds > SAMPLE_INTERVAL - 1`, log one statistics row and reset
`start_time` to now and both counters to 0. -/
def runCycle (s : RunState) (inp : CycleInput) : RunState × CycleResult :=
  let ticks1 := s.ticks + 1
  let fraud : Bool := decide (ticks1 > s.fraud_tick)
  let st1 : RunState :=
    if fraud then
      { s with
        num_fintrans := s.num_fintrans + 2
        num_bytes := s.num_bytes + (inp.fintransize + inp.fraudtransize)
        ticks := 0
        fraud_tick := pyrandint FRAUD_TICK_MIN FRAUD_TICK_MAX inp.redraw }
    else
      { s with
        num_fintrans := s.num_fintrans + 1
        num_bytes := s.num_bytes + inp.fintransize
        ticks := ticks1 }
  let diffSecs := (inp.now - s.start_time) % 86400
  if diffSecs > SAMPLE_INTERVAL - 1 then
    ({ st1 with start_time := inp.now, num_fintrans := 0, num_bytes := 0 },
     { fraudEmitted := fraud
       report := some
         { ts := inp.now
           num_fintrans_th := st1.num_fintrans / 1000
           tp_fintrans := st1.num_fintrans / 1000 / diffSecs
           num_bytes_mb := st1.num_bytes / 1024 / 1024
           tp_bytes := st1.num_bytes / 1024 / 1024 / diffSecs } })
  else
    (st1, { fraudEmitted := fraud, report := none })

/-- Iterated `runCycle`: the loop state after consuming a list of cycle
environments. -/
def runTrace (s : RunState) : List CycleInput → RunState
  | [] => s
  | inp :: rest => runTrace (runCycle s inp).1 rest

/-- The per-cycle fraud-emission flags along a run. -/
def cycleEmits (s : RunState) : List CycleInput → List Bool
  | [] => []
  | inp :: rest =>
    (runCycle s inp).2.fraudEmitted :: cycleEmits (runCycle s inp).1 rest

/-! ## Concrete instances used by the closed evaluation theorems -/

/-- A one-entry location table. -/
def exTbl : AtmLoc := [(1, ⟨"37.25", "-121.86", "Test ATM"⟩)]

/-- A concrete timestamp rendering (the constant string suffices: length
matters, rendering does not). -/
def exFmt : Int → String := fun _ => "2018-10-05 10:47:54 +0000"

/-- A concrete originating transaction. -/
def exFin : FinTran :=
  { timestamp := 1000
    atm := "Test ATM"
    location := { lat := "37.25", lon := "-121.86" }
    amount := 20
    account_id := "a228"
    transaction_id := "bb35284a-c883-11e8-8421-186590d22a35" }

/-- The fraud transaction derived from `exFin` at concrete oracle values. -/
def exFraudOut : FinTran × Nat :=
  (create_fraudtran exTbl exFmt 37 exFin 0 0 0 2000).getD (exFin, 0)

/-- The transaction created at concrete oracle values. -/
def exFinOut : FinTran × Nat :=
  (create_fintran exTbl exFmt 37 0 0 0 0 "bb35284a-c883-11e8-8421-186590d22a35").getD (exFin, 0)

/-! # Theorems -/

/-! ## Loading the location table -/

theorem dictAssign_fresh (d : AtmLoc) (k : Nat) (v : AtmRecord)
    (h : ∀ p ∈ d, p.1 ≠ k) : dictAssign d k v = d ++ [(k, v)] := by
  unfold dictAssign
  have hall : d.any (fun p => p.1 == k) = false := by
    rw [List.any_eq_false]
    intro p hp
    simpa using h p hp
  simp [hall]

theorem load_rows_ok (rows : List (List String)) :
    ∀ (d : AtmLoc) (c : Nat),
    (∀ r ∈ rows, (parseRow r).isSome) →
    (∀ p ∈ d, p.1 ≤ c) →
    load_rows d c rows = (d ++ entriesFrom c rows, c + rows.length, none) := by
  induction rows with
  | nil =>
    intro d c _ _
    show (d, c, none) = (d ++ entriesFrom c [], c + 0, none)
    simp [entriesFrom]
  | cons row rest ih =>
    intro d c hwf hkeys
    obtain ⟨rec, hrec⟩ :=
      Option.isSome_iff_exists.mp (hwf row (List.mem_cons_self _ _))
    have hfresh : ∀ p ∈ d, p.1 ≠ c + 1 := by
      intro p hp
      have := hkeys p hp
      omega
    have hkeys' : ∀ p ∈ d ++ [(c + 1, rec)], p.1 ≤ c + 1 := by
      intro p hp
      rcases List.mem_append.mp hp with h1 | h1
      · exact Nat.le_succ_of_le (hkeys p h1)
      · simp only [List.mem_singleton] at h1
        subst h1
        exact Nat.le_refl _
    have hrest : ∀ r ∈ rest, (parseRow r).isSome :=
      fun r hr => hwf r (List.mem_cons_of_mem _ hr)
    simp only [load_rows, hrec, dictAssign_fresh d (c + 1) rec hfresh]
    rw [ih (d ++ [(c + 1, rec)]) (c + 1) hrest hkeys']
    have hc : c + 1 + rest.length = c + (rest.length + 1) := by omega
    simp only [entriesFrom, hrec, List.append_assoc, List.singleton_append,
      List.length_cons, hc]

theorem entriesFrom_length (rows : List (List String)) :
    ∀ c : Nat, (∀ r ∈ rows, (parseRow r).isSome) →
    (entriesFrom c rows).length = rows.length := by
  induction rows with
  | nil =>
    intro c _
    rfl
  | cons row rest ih =>
    intro c hwf
    obtain ⟨rec, hrec⟩ :=
      Option.isSome_iff_exists.mp (hwf row (List.mem_cons_self _ _))
    simp only [entriesFrom, hrec, List.length_cons]
    rw [ih (c + 1) (fun r hr => hwf r (List.mem_cons_of_mem _ hr))]

theorem load_rows_malformed (good : List (List String)) :
    ∀ (d : AtmLoc) (c : Nat) (bad : List String) (rest : List (List String)),
    (∀ r ∈ good, (parseRow r).isSome) →
    parseRow bad = none →
    (∀ p ∈ d, p.1 ≤ c) →
    load_rows d c (good ++ bad :: rest) =
      (d ++ entriesFrom c good, c + good.length, some "IndexError") := by
  induction good with
  | nil =>
    intro d c bad rest _ hbad _
    simp [load_rows, hbad, entriesFrom]
  | cons row g ih =>
    intro d c bad rest hwf hbad hkeys
    obtain ⟨rec, hrec⟩ :=
      Option.isSome_iff_exists.mp (hwf row (List.mem_cons_self _ _))
    have hfresh : ∀ p ∈ d, p.1 ≠ c + 1 := by
      intro p hp
      have := hkeys p hp
      omega
    have hkeys' : ∀ p ∈ d ++ [(c + 1, rec)], p.1 ≤ c + 1 := by
      intro p hp
      rcases List.mem_append.mp hp with h1 | h1
      · exact Nat.le_succ_of_le (hkeys p h1)
      · simp only [List.mem_singleton] at h1
        subst h1
        exact Nat.le_refl _
    have hg : ∀ r ∈ g, (parseRow r).isSome :=
      fun r hr => hwf r (List.mem_cons_of_mem _ hr)
    simp only [List.cons_append, load_rows, hrec,
      dictAssign_fresh d (c + 1) rec hfresh, List.append_eq]
    rw [ih (d ++ [(c + 1, rec)]) (c + 1) bad rest hg hbad hkeys']
    have hc : c + 1 + g.length = c + (g.length + 1) := by omega
    simp only [entriesFrom, hrec, List.append_assoc, List.singleton_append,
      List.length_cons, hc]

/-- C1 (status: code_bug).  The claim says keys continue across source files,
so two files of one well-formed row each should yield two entries keyed 1, 2.
The code resets the local `atm_counter` to 0 on every `_load_data` call, so
the second file's row is stored under key 1 again, overwriting the first
file's row: the table ends with exactly one entry, holding the second file's
data. -/
theorem claim_C1_two_files_overwrite :
    init_atm_loc [[["-121.86", "37.25", "A"]], [["-121.90", "37.27", "B"]]] =
      ([(1, ⟨"37.27", "-121.90", "B"⟩)], none) ∧
    (init_atm_loc [[["-121.86", "37.25", "A"]], [["-121.90", "37.27", "B"]]]).1.length = 1 := by
  constructor
  · rfl
  · rfl

/-- C5 counterexample: a file with one well-formed row followed by a
one-column row.  The claim says the load never aborts because of the
malformed row, i.e. no exception escapes; in fact the `IndexError` raised by
`row[2]` propagates out of `_load_data` (its `try` has only a `finally`). -/
theorem claim_C5_counterexample :
    (load_data [] [["-121.86", "37.25", "A"], ["oops"]]).2 = some "IndexError" := by
  rfl

/-- C5 (amended): a malformed row (fewer than three columns) raises an
`IndexError` that aborts the whole load; the rows before it are already in the
table, uncorrupted — one entry per preceding row, keyed sequentially from 1 in
row order — and the rows after it are never loaded. -/
theorem claim_C5_abort_preserves_prefix (good : List (List String))
    (bad : List String) (rest : List (List String))
    (hgood : ∀ r ∈ good, (parseRow r).isSome)
    (hbad : parseRow bad = none) :
    load_data [] (good ++ bad :: rest) = (entriesFrom 0 good, some "IndexError") ∧
    (entriesFrom 0 good).length = good.length := by
  constructor
  · unfold load_data
    rw [load_rows_malformed good [] 0 bad rest hgood hbad (by intro p hp; cases hp)]
    rfl
  · exact entriesFrom_length good 0 hgood

/-- C5 witness: the amended statement at the concrete counterexample file. -/
theorem claim_C5_abort_preserves_prefix_witness :
    load_data [] [["-121.86", "37.25", "A"], ["oops"]] =
      (entriesFrom 0 [["-121.86", "37.25", "A"]], some "IndexError") ∧
    (entriesFrom 0 [["-121.86", "37.25", "A"]]).length = 1 :=
  claim_C5_abort_preserves_prefix [["-121.86", "37.25", "A"]] ["oops"] []
    (by decide) (by decide)

/-- C8 counterexample: loading a source file with zero rows succeeds — no
error is raised and the constructor returns with an empty table — contradicting
the claim that the generator fails fatally at load/startup time when the table
ends up empty. -/
theorem claim_C8_counterexample :
    init_atm_loc [[]] = ([], none) := by
  rfl

theorem init_atm_loc_empty_sources (sources : List (List (List String)))
    (h : ∀ f ∈ sources, f = []) :
    init_atm_loc sources = ([], none) := by
  induction sources with
  | nil => rfl
  | cons f fs ih =>
    have hf : f = [] := h f (List.mem_cons_self _ _)
    subst hf
    have : init_atm_loc ([] :: fs) = init_atm_loc fs := rfl
    rw [this]
    exact ih (fun f hf => h f (List.mem_cons_of_mem _ hf))

/-- C8 (amended): an empty reference table is not rejected at load time —
construction from sources with no rows succeeds with the empty table and no
error.  The failure surfaces at sampling time instead: `_create_fintran` on an
empty table fails (`random.choice` of the empty key list raises `IndexError`),
so no transaction is ever produced from an empty table. -/
theorem claim_C8_empty_table (sources : List (List (List String)))
    (h : ∀ f ∈ sources, f = []) :
    init_atm_loc sources = ([], none) ∧
    ∀ (fmt : Int → String) (overhead rloc rAmt racct : Nat) (now : Int)
      (u : String),
      create_fintran [] fmt overhead rloc rAmt racct now u = none := by
  constructor
  · exact init_atm_loc_empty_sources sources h
  · intro fmt overhead rloc rAmt racct now u
    rfl

/-- C8 witness: the amended statement at one zero-row source file and concrete
sampling oracles. -/
theorem claim_C8_empty_table_witness :
    init_atm_loc [[]] = ([], none) ∧
    create_fintran [] exFmt 37 0 0 0 0 "u" = none :=
  ⟨(claim_C8_empty_table [[]] (by simp)).1,
   (claim_C8_empty_table [[]] (by simp)).2 exFmt 37 0 0 0 0 "u"⟩

/-! ## Creating transactions and fraud transactions -/

/-- The fraud transaction's timestamp field never depends on the originating
transaction (only `account_id` and `transaction_id` are read from it, and they
do not feed the timestamp). -/
theorem create_fraudtran_timestamp_indep (atm_loc : AtmLoc) (fmt : Int → String)
    (overhead : Nat) (ft ft' : FinTran) (rloc rAmt roff : Nat) (now : Int) :
    (create_fraudtran atm_loc fmt overhead ft rloc rAmt roff now).map
      (fun p => p.1.timestamp) =
    (create_fraudtran atm_loc fmt overhead ft' rloc rAmt roff now).map
      (fun p => p.1.timestamp) := by
  unfold create_fraudtran
  cases hk : pychoice (atm_loc.map Prod.fst) rloc with
  | none => rfl
  | some k =>
    cases hl : atm_loc.lookup k with
    | none => simp [hl]
    | some loc =>
      cases ha : pychoice AMOUNTS rAmt with
      | none => simp [hl, ha]
      | some amt => simp [hl, ha]

/-- C3 (confirmed): every fraud transaction carries the originating
transaction's `account_id` verbatim, and its `transaction_id` is the fixed
literal marker `'xxx'` prepended to the original's.  The source only reads the
originating dictionary (the embedding is a pure function of it), so the
original is unchanged by the derivation. -/
theorem claim_C3_fraud_ids (atm_loc : AtmLoc) (fmt : Int → String)
    (overhead : Nat) (fintran : FinTran) (rloc rAmt roff : Nat) (now : Int)
    (fd : FinTran) (sz : Nat)
    (h : create_fraudtran atm_loc fmt overhead fintran rloc rAmt roff now =
      some (fd, sz)) :
    fd.account_id = fintran.account_id ∧
    fd.transaction_id = "xxx" ++ fintran.transaction_id := by
  unfold create_fraudtran at h
  split at h
  · exact absurd h (by simp)
  · split at h
    · exact absurd h (by simp)
    · split at h
      · exact absurd h (by simp)
      · simp only [Option.some.injEq, Prod.mk.injEq] at h
        obtain ⟨hft, _⟩ := h
        subst hft
        exact ⟨rfl, rfl⟩

/-- C3 witness: the derivation at concrete oracles from `exFin`. -/
theorem claim_C3_witness :
    exFraudOut.1.account_id = exFin.account_id ∧
    exFraudOut.1.transaction_id = "xxx" ++ exFin.transaction_id :=
  claim_C3_fraud_ids exTbl exFmt 37 exFin 0 0 0 2000 exFraudOut.1 exFraudOut.2 rfl

/-- C4 (confirmed): a fraud transaction's timestamp is strictly earlier than
the fraud-creation instant `now`, by an offset between 60 and 600 seconds
inclusive (`random.randint(60, 600)`), and it is computed from `now` — it does
not depend on the originating transaction's timestamp at all. -/
theorem claim_C4_fraud_timestamp (atm_loc : AtmLoc) (fmt : Int → String)
    (overhead : Nat) (fintran : FinTran) (rloc rAmt roff : Nat) (now : Int)
    (fd : FinTran) (sz : Nat)
    (h : create_fraudtran atm_loc fmt overhead fintran rloc rAmt roff now =
      some (fd, sz)) :
    fd.timestamp < now ∧
    60 ≤ now - fd.timestamp ∧
    now - fd.timestamp ≤ 600 ∧
    ∀ ts : Int,
      (create_fraudtran atm_loc fmt overhead { fintran with timestamp := ts }
          rloc rAmt roff now).map (fun p => p.1.timestamp) =
        some fd.timestamp := by
  have hts : fd.timestamp = now - (pyrandint 60 600 roff : Nat) := by
    unfold create_fraudtran at h
    split at h
    · exact absurd h (by simp)
    · split at h
      · exact absurd h (by simp)
      · split at h
        · exact absurd h (by simp)
        · simp only [Option.some.injEq, Prod.mk.injEq] at h
          obtain ⟨hft, _⟩ := h
          subst hft
          rfl
  have h1 := le_pyrandint 60 600 roff
  have h2 := pyrandint_le 60 600 roff (by norm_num)
  refine ⟨by omega, by omega, by omega, ?_⟩
  intro ts
  rw [create_fraudtran_timestamp_indep atm_loc fmt overhead
    { fintran with timestamp := ts } fintran rloc rAmt roff now, h]
  rfl

/-- C4 witness: the statement at concrete oracles (`now = 2000`), with the
independence conjunct instantiated at the altered original timestamp 55. -/
theorem claim_C4_witness :
    exFraudOut.1.timestamp < 2000 ∧
    60 ≤ 2000 - exFraudOut.1.timestamp ∧
    2000 - exFraudOut.1.timestamp ≤ 600 ∧
    (create_fraudtran exTbl exFmt 37 { exFin with timestamp := 55 }
        0 0 0 2000).map (fun p => p.1.timestamp) = some exFraudOut.1.timestamp := by
  obtain ⟨a, b, c, d⟩ :=
    claim_C4_fraud_timestamp exTbl exFmt 37 exFin 0 0 0 2000
      exFraudOut.1 exFraudOut.2 rfl
  exact ⟨a, b, c, d 55⟩

set_option maxRecDepth 8192 in
/-- The Python string form and the JSON form of a record have the same length:
they differ only by single versus double quotes, one character either way. -/
theorem pyStr_length_eq_json_length (fmt : Int → String) (t : FinTran) :
    (pyStrOfFintran fmt t).length = (jsonOfFintran fmt t).length := by
  simp only [pyStrOfFintran, jsonOfFintran, String.length_append]
  have h1 : ("\x7b'timestamp': '" : String).length =
    ("\x7b\"timestamp\": \"" : String).length := rfl
  have h2 : ("', 'atm': '" : String).length =
    ("\", \"atm\": \"" : String).length := rfl
  have h3 : ("', 'location': \x7b'lat': '" : String).length =
    ("\", \"location\": \x7b\"lat\": \"" : String).length := rfl
  have h4 : ("', 'lon': '" : String).length =
    ("\", \"lon\": \"" : String).length := rfl
  have h5 : ("'\x7d, 'amount': " : String).length =
    ("\"\x7d, \"amount\": " : String).length := rfl
  have h6 : (", 'account_id': '" : String).length =
    (", \"account_id\": \"" : String).length := rfl
  have h7 : ("', 'transaction_id': '" : String).length =
    ("\", \"transaction_id\": \"" : String).length := rfl
  have h8 : ("'\x7d" : String).length = ("\"\x7d" : String).length := rfl
  omega

set_option maxRecDepth 8192 in
/-- C6 counterexample: at concrete oracles over `exTbl`, the second component
of `_create_fintran`'s result (namely `sys.getsizeof(str(fintran))`, here with
the 64-bit CPython 2.7 header size 37) is 238, while the byte length of the
serialized JSON form of the same record is 201. -/
theorem claim_C6_counterexample :
    (create_fintran exTbl exFmt 37 0 0 0 0
        "bb35284a-c883-11e8-8421-186590d22a35").map Prod.snd ≠
    (create_fintran exTbl exFmt 37 0 0 0 0
        "bb35284a-c883-11e8-8421-186590d22a35").map
      (fun p => (jsonOfFintran exFmt p.1).length) := by
  decide

/-- C6 (amended): the second component of the returned pair is
`sys.getsizeof(str(record))` — a positive object-header overhead plus the
length of the record's Python string form — for both `_create_fintran` and
`_create_fraudtran`.  It strictly exceeds the byte length of the record's
serialized JSON form (which equals the string form's length), so it never
equals it. -/
theorem claim_C6_size_is_getsizeof (atm_loc : AtmLoc) (fmt : Int → String)
    (overhead : Nat) (fintran0 : FinTran) (rloc rAmt racct roff : Nat)
    (now : Int) (u : String) (hov : 1 ≤ overhead) :
    (∀ ft sz,
      create_fintran atm_loc fmt overhead rloc rAmt racct now u = some (ft, sz) →
      sz = getsizeof_str overhead (pyStrOfFintran fmt ft) ∧
      (jsonOfFintran fmt ft).length < sz) ∧
    (∀ fd sz,
      create_fraudtran atm_loc fmt overhead fintran0 rloc rAmt roff now =
        some (fd, sz) →
      sz = getsizeof_str overhead (pyStrOfFintran fmt fd) ∧
      (jsonOfFintran fmt fd).length < sz) := by
  constructor
  · intro ft sz h
    unfold create_fintran at h
    split at h
    · exact absurd h (by simp)
    · split at h
      · exact absurd h (by simp)
      · split at h
        · exact absurd h (by simp)
        · simp only [Option.some.injEq, Prod.mk.injEq] at h
          obtain ⟨hft, hsz⟩ := h
          subst hft
          subst hsz
          refine ⟨rfl, ?_⟩
          rw [← pyStr_length_eq_json_length fmt]
          unfold getsizeof_str
          omega
  · intro fd sz h
    unfold create_fraudtran at h
    split at h
    · exact absurd h (by simp)
    · split at h
      · exact absurd h (by simp)
      · split at h
        · exact absurd h (by simp)
        · simp only [Option.some.injEq, Prod.mk.injEq] at h
          obtain ⟨hft, hsz⟩ := h
          subst hft
          subst hsz
          refine ⟨rfl, ?_⟩
          rw [← pyStr_length_eq_json_length fmt]
          unfold getsizeof_str
          omega

/-- C6 witness: the amended statement at the concrete transaction of the
counterexample. -/
theorem claim_C6_witness :
    exFinOut.2 = getsizeof_str 37 (pyStrOfFintran exFmt exFinOut.1) ∧
    (jsonOfFintran exFmt exFinOut.1).length < exFinOut.2 :=
  (claim_C6_size_is_getsizeof exTbl exFmt 37 exFin 0 0 0 0 0
      "bb35284a-c883-11e8-8421-186590d22a35" (by norm_num)).1
    exFinOut.1 exFinOut.2 rfl

/-! ## The run loop: fraud scheduling and statistics -/

/-- How one cycle changes the scheduler variables: fraud is signalled exactly
when the incremented tick counter exceeds the threshold, in which case `ticks`
resets to 0 and `fraud_tick` is redrawn; otherwise both accumulate.  (The
statistics block never touches `ticks` or `fraud_tick`.) -/
theorem runCycle_proj (s : RunState) (inp : CycleInput) :
    (runCycle s inp).2.fraudEmitted = decide (s.fraud_tick < s.ticks + 1) ∧
    (runCycle s inp).1.ticks =
      (if s.fraud_tick < s.ticks + 1 then 0 else s.ticks + 1) ∧
    (runCycle s inp).1.fraud_tick =
      (if s.fraud_tick < s.ticks + 1 then
        pyrandint FRAUD_TICK_MIN FRAUD_TICK_MAX inp.redraw
       else s.fraud_tick) := by
  unfold runCycle
  by_cases h : s.fraud_tick < s.ticks + 1 <;>
    by_cases h2 : (inp.now - s.start_time) % 86400 > SAMPLE_INTERVAL - 1 <;>
    simp [h, h2]

theorem runTrace_fraud_tick_range (inps : List CycleInput) :
    ∀ s : RunState,
    FRAUD_TICK_MIN ≤ s.fraud_tick → s.fraud_tick ≤ FRAUD_TICK_MAX →
    FRAUD_TICK_MIN ≤ (runTrace s inps).fraud_tick ∧
    (runTrace s inps).fraud_tick ≤ FRAUD_TICK_MAX := by
  induction inps with
  | nil =>
    intro s h1 h2
    exact ⟨h1, h2⟩
  | cons inp rest ih =>
    intro s h1 h2
    have hproj := (runCycle_proj s inp).2.2
    show FRAUD_TICK_MIN ≤ (runTrace (runCycle s inp).1 rest).fraud_tick ∧ _
    apply ih
    · rw [hproj]
      split
      · exact le_pyrandint _ _ _
      · exact h1
    · rw [hproj]
      split
      · exact pyrandint_le _ _ _ (by norm_num [FRAUD_TICK_MIN, FRAUD_TICK_MAX])
      · exact h2

/-- C2 (confirmed): in every state the run loop reaches — the threshold drawn
at loop start and redrawn on each fraud emission — `fraud_tick` lies in
`[FRAUD_TICK_MIN, FRAUD_TICK_MAX] = [5, 15]`; a cycle emits a fraud
transaction iff the tick counter, incremented this cycle, exceeds the current
threshold; and on emission the counter resets to 0 and the threshold is
redrawn from `[5, 15]`.  (Uniformity of `random.randint` is a library
distribution guarantee; what is verified is that every draw lies in the
inclusive range, which `pyrandint` models.) -/
theorem claim_C2_fraud_iff_threshold (start t0 : Nat) (inps : List CycleInput)
    (inp : CycleInput) :
    (FRAUD_TICK_MIN ≤ (runTrace (initRunState start t0) inps).fraud_tick ∧
     (runTrace (initRunState start t0) inps).fraud_tick ≤ FRAUD_TICK_MAX) ∧
    ((runCycle (runTrace (initRunState start t0) inps) inp).2.fraudEmitted = true ↔
      (runTrace (initRunState start t0) inps).fraud_tick <
        (runTrace (initRunState start t0) inps).ticks + 1) ∧
    ((runCycle (runTrace (initRunState start t0) inps) inp).2.fraudEmitted = true →
      (runCycle (runTrace (initRunState start t0) inps) inp).1.ticks = 0 ∧
      (runCycle (runTrace (initRunState start t0) inps) inp).1.fraud_tick =
        pyrandint FRAUD_TICK_MIN FRAUD_TICK_MAX inp.redraw) := by
  have hrange := runTrace_fraud_tick_range inps (initRunState start t0)
    (le_pyrandint _ _ _)
    (pyrandint_le _ _ _ (by norm_num [FRAUD_TICK_MIN, FRAUD_TICK_MAX]))
  have hproj := runCycle_proj (runTrace (initRunState start t0) inps) inp
  refine ⟨hrange, ?_, ?_⟩
  · rw [hproj.1]
    simp
  · intro hem
    rw [hproj.1] at hem
    simp at hem
    rw [hproj.2.1, hproj.2.2]
    simp [hem]

/-- C2 witness: from the initial state, five quiet cycles reach
`ticks = 5` with threshold 5; the sixth cycle emits fraud, resets the counter
and redraws the threshold. -/
theorem claim_C2_witness :
    (runCycle (runTrace (initRunState 0 0) (List.replicate 5 ⟨0, 0, 0, 0⟩))
        ⟨0, 0, 7, 0⟩).2.fraudEmitted = true ∧
    (runCycle (runTrace (initRunState 0 0) (List.replicate 5 ⟨0, 0, 0, 0⟩))
        ⟨0, 0, 7, 0⟩).1.ticks = 0 ∧
    (runCycle (runTrace (initRunState 0 0) (List.replicate 5 ⟨0, 0, 0, 0⟩))
        ⟨0, 0, 7, 0⟩).1.fraud_tick =
      pyrandint FRAUD_TICK_MIN FRAUD_TICK_MAX 7 := by
  have h := claim_C2_fraud_iff_threshold 0 0 (List.replicate 5 ⟨0, 0, 0, 0⟩)
    ⟨0, 0, 7, 0⟩
  have hem := h.2.1.mpr (by decide)
  exact ⟨hem, h.2.2 hem⟩

theorem cycleEmits_all_false (inps : List CycleInput) :
    ∀ s : RunState, s.ticks + inps.length ≤ s.fraud_tick →
    cycleEmits s inps = List.replicate inps.length false := by
  induction inps with
  | nil =>
    intro s _
    rfl
  | cons inp rest ih =>
    intro s h
    have hproj := runCycle_proj s inp
    have hnf : ¬ (s.fraud_tick < s.ticks + 1) := by
      simp only [List.length_cons] at h
      omega
    have hd : (runCycle s inp).2.fraudEmitted = false := by
      rw [hproj.1]
      simp [hnf]
    have hih : cycleEmits (runCycle s inp).1 rest =
        List.replicate rest.length false := by
      apply ih
      rw [hproj.2.1, hproj.2.2]
      simp only [if_neg hnf]
      simp only [List.length_cons] at h
      omega
    show (runCycle s inp).2.fraudEmitted :: cycleEmits (runCycle s inp).1 rest = _
    rw [hd, hih]
    simp [List.replicate_succ]

/-- C9 (confirmed): after any cycle that emits a fraud transaction, the tick
counter is 0 and the redrawn threshold is at least `FRAUD_TICK_MIN = 5`, so the
next `FRAUD_TICK_MIN` cycles emit no fraud (every emission flag in any
continuation of at most that length is `false`).  In particular no two
consecutive cycles both emit fraud. -/
theorem claim_C9_no_consecutive_fraud (s : RunState) (inp : CycleInput)
    (h : (runCycle s inp).2.fraudEmitted = true)
    (inps : List CycleInput) (hlen : inps.length ≤ FRAUD_TICK_MIN) :
    cycleEmits (runCycle s inp).1 inps = List.replicate inps.length false := by
  have hproj := runCycle_proj s inp
  have hfraud : s.fraud_tick < s.ticks + 1 := by
    by_contra hc
    rw [hproj.1] at h
    simp [hc] at h
  apply cycleEmits_all_false
  rw [hproj.2.1, hproj.2.2]
  simp only [if_pos hfraud]
  have := le_pyrandint FRAUD_TICK_MIN FRAUD_TICK_MAX inp.redraw
  omega

/-- C9 witness: a fraud-emitting cycle followed by five quiet cycles. -/
theorem claim_C9_witness :
    cycleEmits (runCycle ⟨0, 0, 0, 5, 5⟩ ⟨0, 0, 0, 0⟩).1
        (List.replicate 5 ⟨0, 0, 0, 0⟩) =
      List.replicate 5 false :=
  claim_C9_no_consecutive_fraud ⟨0, 0, 0, 5, 5⟩ ⟨0, 0, 0, 0⟩ (by decide)
    (List.replicate 5 ⟨0, 0, 0, 0⟩) (by decide)

/-- C7 (confirmed): when the elapsed time since `start_time` (as the code
measures it, `diff_time.seconds`) exceeds `SAMPLE_INTERVAL - 1`, the cycle
emits exactly one report row stamped with the report time, resets both
counters to 0, and advances `start_time` to the report time; on any other
cycle no row is emitted, `start_time` stays, and the counters only accumulate
this cycle's transactions and bytes — they are never reset. -/
theorem claim_C7_stats_reset (s : RunState) (inp : CycleInput) :
    ((inp.now - s.start_time) % 86400 > SAMPLE_INTERVAL - 1 →
      ((runCycle s inp).2.report.map StatsReport.ts = some inp.now ∧
       (runCycle s inp).1.num_fintrans = 0 ∧
       (runCycle s inp).1.num_bytes = 0 ∧
       (runCycle s inp).1.start_time = inp.now)) ∧
    ((inp.now - s.start_time) % 86400 ≤ SAMPLE_INTERVAL - 1 →
      ((runCycle s inp).2.report = none ∧
       (runCycle s inp).1.start_time = s.start_time ∧
       ((runCycle s inp).2.fraudEmitted = true →
         (runCycle s inp).1.num_fintrans = s.num_fintrans + 2 ∧
         (runCycle s inp).1.num_bytes =
           s.num_bytes + (inp.fintransize + inp.fraudtransize)) ∧
       ((runCycle s inp).2.fraudEmitted = false →
         (runCycle s inp).1.num_fintrans = s.num_fintrans + 1 ∧
         (runCycle s inp).1.num_bytes = s.num_bytes + inp.fintransize))) := by
  by_cases hf : s.fraud_tick < s.ticks + 1 <;>
    by_cases h2 : (inp.now - s.start_time) % 86400 > SAMPLE_INTERVAL - 1 <;>
      unfold runCycle <;> simp [hf, h2]

/-- C7 witness: a reporting cycle (elapsed 10 s) resets the counters and
stamps the row; a non-reporting cycle (elapsed 5 s) emits no row and only
accumulates. -/
theorem claim_C7_witness :
    ((runCycle ⟨0, 42, 999, 0, 5⟩ ⟨3, 4, 0, 10⟩).2.report.map StatsReport.ts =
        some 10 ∧
      (runCycle ⟨0, 42, 999, 0, 5⟩ ⟨3, 4, 0, 10⟩).1.num_fintrans = 0 ∧
      (runCycle ⟨0, 42, 999, 0, 5⟩ ⟨3, 4, 0, 10⟩).1.num_bytes = 0 ∧
      (runCycle ⟨0, 42, 999, 0, 5⟩ ⟨3, 4, 0, 10⟩).1.start_time = 10) ∧
    ((runCycle ⟨0, 42, 999, 0, 5⟩ ⟨3, 4, 0, 5⟩).2.report = none ∧
      (runCycle ⟨0, 42, 999, 0, 5⟩ ⟨3, 4, 0, 5⟩).1.num_fintrans = 43 ∧
      (runCycle ⟨0, 42, 999, 0, 5⟩ ⟨3, 4, 0, 5⟩).1.num_bytes = 1002) := by
  have ha := (claim_C7_stats_reset ⟨0, 42, 999, 0, 5⟩ ⟨3, 4, 0, 10⟩).1 (by decide)
  have hb := (claim_C7_stats_reset ⟨0, 42, 999, 0, 5⟩ ⟨3, 4, 0, 5⟩).2 (by decide)
  refine ⟨ha, hb.1, ?_, ?_⟩
  · exact ((hb.2.2.2) (by decide)).1
  · exact ((hb.2.2.2) (by decide)).2

/-- C10 (confirmed): the report row is computed with Python 2 integer (floor)
division — transactions divided by 1000, bytes by 1024 twice, each then by the
whole elapsed seconds — so a window that counted fewer than 1000 transactions
reports 0 in both transaction columns, and one that counted fewer than
1 MiB reports 0 in both byte columns.  (The hypotheses bound the counters
after this cycle's increments, covering both the fraud and no-fraud cases.) -/
theorem claim_C10_floor_division_zero (s : RunState) (inp : CycleInput)
    (hrep : (inp.now - s.start_time) % 86400 > SAMPLE_INTERVAL - 1)
    (hn : s.num_fintrans + 2 < 1000)
    (hb : s.num_bytes + (inp.fintransize + inp.fraudtransize) < 1024 * 1024) :
    (runCycle s inp).2.report.map StatsReport.num_fintrans_th = some 0 ∧
    (runCycle s inp).2.report.map StatsReport.tp_fintrans = some 0 ∧
    (runCycle s inp).2.report.map StatsReport.num_bytes_mb = some 0 ∧
    (runCycle s inp).2.report.map StatsReport.tp_bytes = some 0 := by
  by_cases hf : s.fraud_tick < s.ticks + 1
  · have e1 : (s.num_fintrans + 2) / 1000 = 0 := Nat.div_eq_of_lt hn
    have e2 : (s.num_bytes + (inp.fintransize + inp.fraudtransize)) / 1024 / 1024 = 0 := by
      apply Nat.div_eq_of_lt
      rw [Nat.div_lt_iff_lt_mul (by norm_num)]
      omega
    unfold runCycle
    simp [hf, hrep, e1, e2]
  · have e1 : (s.num_fintrans + 1) / 1000 = 0 := Nat.div_eq_of_lt (by omega)
    have e2 : (s.num_bytes + inp.fintransize) / 1024 / 1024 = 0 := by
      apply Nat.div_eq_of_lt
      rw [Nat.div_lt_iff_lt_mul (by norm_num)]
      omega
    unfold runCycle
    simp [hf, hrep, e1, e2]

/-- C10 witness: a reporting window with 2 transactions and 7 bytes reports
zeros in all four columns. -/
theorem claim_C10_witness :
    (runCycle ⟨0, 0, 0, 0, 5⟩ ⟨3, 4, 0, 10⟩).2.report.map
        StatsReport.num_fintrans_th = some 0 ∧
    (runCycle ⟨0, 0, 0, 0, 5⟩ ⟨3, 4, 0, 10⟩).2.report.map
        StatsReport.tp_fintrans = some 0 ∧
    (runCycle ⟨0, 0, 0, 0, 5⟩ ⟨3, 4, 0, 10⟩).2.report.map
        StatsReport.num_bytes_mb = some 0 ∧
    (runCycle ⟨0, 0, 0, 0, 5⟩ ⟨3, 4, 0, 10⟩).2.report.map
        StatsReport.tp_bytes = some 0 :=
  claim_C10_floor_division_zero ⟨0, 0, 0, 0, 5⟩ ⟨3, 4, 0, 10⟩
    (by decide) (by decide) (by decide)

end Fintrans
